import Mathlib

/-!
Verification of the price-normalization core of the dashboard-benchmarking
repository (src/app.py): the functions `limpar_nomes_colunas` (app.py lines
74-77) and `processar_valores_monetarios` (app.py lines 80-129).

Shallow embedding choices, stated once here:

* A pandas cell of a price column is either a text value, a (finite) float,
  or the missing marker NaN.  We model floats by rationals (every finite
  Python float is a rational; none of the verified properties depend on
  binary rounding, and the multiplications by 1000 used by the code are
  exact on all the values involved).  Infinities are outside the model.
* Python strings are modelled by Lean `String`, and the `str` methods the
  code uses (`replace` with a two-character pattern and empty replacement,
  `strip`, `contains`, single-character `replace`) are re-implemented below
  by structural recursion on the character list, with Python semantics
  (left-to-right scan, no rescan of replaced text, whitespace set of
  `str.strip`).
* `pd.to_numeric(..., errors="coerce")` on an already-stripped string is
  modelled by `to_numeric` below: optional sign, decimal digits with at
  most one point, at least one digit; anything else (including the string
  "nan" that `astype(str)` produces from NaN) coerces to the missing value
  `none`.  Scientific notation and infinities, which pandas would also
  accept, are outside the model; no claim depends on them.
* A DataFrame is a list of named columns (`Table`).  The code's loop
  `for col in colunas_preco: if col in df.columns: df[col] = ...`
  transforms exactly those columns whose (already trimmed) name is one of
  the two price names, so it is embedded as a per-column map.  Tables with
  duplicate column labels (on which pandas selection returns a DataFrame
  and the code would not run) are outside the model.
* `df.columns = ...`, `df[col] = ...` and `df.loc[...] = ...` mutate the
  DataFrame object passed by the caller, and the function returns that same
  object.  `processar_call` below exposes this aliasing: it returns the
  pair (table seen through the caller's retained reference after the call,
  table returned by the call); with pandas semantics both components are
  the fully processed table.
-/

namespace Dashboard

/-! ### Python string primitives -/

/-- Whitespace characters removed by Python `str.strip()`. -/
def ehEspaco (c : Char) : Bool :=
  c = ' ' || c = '\t' || c = '\n' || c = '\r' || c = '\x0b' || c = '\x0c'

/-- Python `str.strip()` on a character list: drop whitespace from both ends. -/
def tiraEspacos (cs : List Char) : List Char :=
  ((cs.dropWhile ehEspaco).reverse.dropWhile ehEspaco).reverse

/-- Python `s.replace(xy, "", )` for a two-character pattern `xy`: scan left to
right, delete every non-overlapping occurrence, never rescanning earlier text. -/
def removeTok (x y : Char) : List Char → List Char
  | [] => []
  | [c] => [c]
  | c :: d :: cs =>
      if c = x && d = y then removeTok x y cs
      else c :: removeTok x y (d :: cs)

/-- Python single-character `s.replace(a, b)`. -/
def trocaChar (a b : Char) (cs : List Char) : List Char :=
  cs.map fun c => if c = a then b else c

/-- Python single-character `s.replace(a, "")`. -/
def removeChar (a : Char) (cs : List Char) : List Char :=
  cs.filter fun c => c != a

/-- String wrapper for `removeTok`. -/
def pyReplaceTok (x y : Char) (s : String) : String := ⟨removeTok x y s.data⟩

/-- String wrapper for `tiraEspacos` (Python `str.strip`). -/
def pyStrip (s : String) : String := ⟨tiraEspacos s.data⟩

/-- String wrapper for `trocaChar`. -/
def pyTroca (a b : Char) (s : String) : String := ⟨trocaChar a b s.data⟩

/-- String wrapper for `removeChar`. -/
def pyRemove (a : Char) (s : String) : String := ⟨removeChar a s.data⟩

/-- Python `a in s` for a single character (pandas `str.contains`). -/
def pyContem (a : Char) (s : String) : Bool := s.data.contains a

/-! ### The numeric parser modelling pd.to_numeric(errors="coerce") -/

/-- Value of a list of decimal digit characters. -/
def digitosParaNat (ds : List Char) : Nat :=
  ds.foldl (fun n c => 10 * n + (c.toNat - 48)) 0

/-- Parse an unsigned decimal numeral: digits, optionally followed by a point
and further digits; at least one digit overall. -/
def parseSemSinal (cs : List Char) : Option ℚ :=
  let ip := cs.takeWhile Char.isDigit
  match cs.dropWhile Char.isDigit with
  | [] => if ip.isEmpty then none else some (digitosParaNat ip)
  | '.' :: fr =>
      if fr.all Char.isDigit && !(ip.isEmpty && fr.isEmpty) then
        some ((digitosParaNat ip : ℚ) + (digitosParaNat fr : ℚ) / (10 : ℚ) ^ fr.length)
      else none
  | _ => none

/-- Model of `pd.to_numeric(s, errors="coerce")` on a stripped string:
`none` is the missing marker NaN. -/
def to_numeric (s : String) : Option ℚ :=
  match s.data with
  | '-' :: cs => (parseSemSinal cs).map fun q => -q
  | '+' :: cs => parseSemSinal cs
  | cs => parseSemSinal cs

/-! ### The cell-level cleaning pipeline (app.py lines 93-111) -/

/-- Currency-symbol removal and strip (app.py lines 96-98): replace the
token R$ first, then r$, then strip enclosing whitespace. -/
def limpar_moeda (s : String) : String :=
  pyStrip (pyReplaceTok 'r' '$' (pyReplaceTok 'R' '$' s))

/-- Separator disambiguation (app.py lines 100-108).  The source computes
`mask_br` on the whole column, rewrites those rows (all commas become
points), and only then computes `mask_virgula`; since the rewritten rows no
longer contain a comma and the other rows are unchanged, the sequential
masked updates coincide with this per-cell conditional. -/
def converter_separadores (s : String) : String :=
  if pyContem ',' s && pyContem '.' s then
    pyTroca ',' '.' (pyRemove '.' s)
  else if pyContem ',' s && !(pyContem '.' s) then
    pyTroca ',' '.' s
  else s

/-- Full text pipeline of one price cell: currency removal, strip, separator
disambiguation, numeric coercion. -/
def processar_texto_preco (s : String) : Option ℚ :=
  to_numeric (converter_separadores (limpar_moeda s))

/-- A cell of a price column before normalization: free-form text, an
already-numeric float, or the missing marker NaN. -/
inductive Cell where
  | str : String → Cell
  | num : ℚ → Cell
  | na : Cell
  deriving DecidableEq, Repr

/-- One cell through `astype(str)` followed by the cleaning pipeline and
`pd.to_numeric`.  For a text cell this is the full string pipeline.  For an
already-numeric cell, Python `str(float)` yields a representation with no
comma and no currency token that `pd.to_numeric` parses back to the same
float, so the round trip is the identity; for NaN, `astype(str)` yields
"nan", which `pd.to_numeric(errors="coerce")` sends back to NaN. -/
def parseCell : Cell → Option ℚ
  | .str s => processar_texto_preco s
  | .num q => some q
  | .na => none

/-! ### The magnitude-correction heuristic (app.py lines 113-127) -/

/-- The successfully-parsed values of a column (`df[col].dropna()`). -/
def valores_validos (xs : List (Option ℚ)) : List ℚ :=
  xs.filterMap id

/-- Magnitude correction (app.py lines 115-127).  With at least one valid
value: if some valid value is < 10 and some is > 100, multiply exactly the
entries < 10 by 1000 (NaN compares false, so missing entries are untouched);
else if the maximum valid value is < 10, multiply the whole column by 1000
(NaN times 1000 stays NaN); else leave the column unchanged. -/
def corrigir_magnitude (xs : List (Option ℚ)) : List (Option ℚ) :=
  match valores_validos xs with
  | [] => xs
  | v :: vs =>
      let tem_pequenos := (v :: vs).any fun x => decide (x < 10)
      let tem_grandes := (v :: vs).any fun x => decide (x > 100)
      if tem_pequenos && tem_grandes then
        xs.map (Option.map fun x => if x < 10 then x * 1000 else x)
      else if vs.foldl max v < 10 then
        xs.map (Option.map fun x => x * 1000)
      else xs

/-- A parsed value back into a cell: after `pd.to_numeric` the column holds
floats and NaN. -/
def ofOpt : Option ℚ → Cell
  | some q => .num q
  | none => .na

/-- The whole per-column body of the loop in app.py lines 90-127: text
coercion and cleaning per cell, numeric coercion, magnitude correction. -/
def processar_coluna_preco (cells : List Cell) : List Cell :=
  (corrigir_magnitude (cells.map parseCell)).map ofOpt

/-! ### Tables and the two functions of the source -/

/-- A DataFrame: an ordered list of named columns. -/
structure Table where
  cols : List (String × List Cell)
  deriving DecidableEq, Repr

/-- The two recognized price columns (app.py line 88). -/
def colunas_preco : List String := ["Initial_Price", "Final_Price"]

/-- Column-name trimming, app.py lines 74-77 (`df.columns = df.columns.str.strip()`). -/
def limpar_nomes_colunas (df : Table) : Table :=
  ⟨df.cols.map fun c => (pyStrip c.1, c.2)⟩

/-- The normalizer, app.py lines 80-129: trim all column names, then process
each column whose trimmed name is a recognized price name. -/
def processar_valores_monetarios (df : Table) : Table :=
  let df2 := limpar_nomes_colunas df
  ⟨df2.cols.map fun c =>
    if c.1 ∈ colunas_preco then (c.1, processar_coluna_preco c.2) else c⟩

/-- A call to the normalizer with pandas aliasing semantics: the first
component is the table the caller's retained reference sees after the call
(the argument object, mutated in place by the column assignments), the
second is the returned table.  Both are the processed table, since the
function mutates its argument and returns it. -/
def processar_call (df : Table) : Table × Table :=
  (processar_valores_monetarios df, processar_valores_monetarios df)

/-- The cell-parsing algorithm exactly as the specification words it: coerce
the cell to text, remove the currency token R$ in either letter case, trim
the surrounding whitespace; then, if the text contains both a comma and a
period, delete all periods and replace the comma with a period; else, if it
contains a comma but no period, replace the comma with a period; otherwise
leave the text unchanged; finally parse the text as a number. -/
def spec_parse_money (s : String) : Option ℚ :=
  let t := pyStrip (pyReplaceTok 'r' '$' (pyReplaceTok 'R' '$' s))
  let u :=
    if pyContem ',' t && pyContem '.' t then pyTroca ',' '.' (pyRemove '.' t)
    else if pyContem ',' t then pyTroca ',' '.' t
    else t
  to_numeric u

/-- A cell with no remaining text artifact: an already-numeric value or the
missing marker. -/
def Cell.semTexto : Cell → Bool
  | .str _ => false
  | .num _ => true
  | .na => true

/-! ### Helper lemmas about the magnitude correction -/

/-- A fold of max stays below a strict upper bound of all its inputs. -/
theorem foldl_max_lt {b : ℚ} :
    ∀ (vs : List ℚ) (v : ℚ), v < b → (∀ w ∈ vs, w < b) → vs.foldl max v < b
  | [], v, hv, _ => hv
  | u :: us, v, hv, hw => by
    have hu : u < b := hw u (by simp)
    have : max v u < b := max_lt hv hu
    exact foldl_max_lt us (max v u) this fun w hwmem => hw w (by simp [hwmem])

/-- Every input of a fold of max is bounded by the fold. -/
theorem le_foldl_max :
    ∀ (vs : List ℚ) (v w : ℚ), w = v ∨ w ∈ vs → w ≤ vs.foldl max v
  | [], v, w, h => by
    rcases h with h | h
    · exact le_of_eq h
    · simp at h
  | u :: us, v, w, h => by
    rcases h with h | h
    · subst h
      calc w ≤ max w u := le_max_left w u
        _ ≤ us.foldl max (max w u) := le_foldl_max us (max w u) _ (Or.inl rfl)
    · rcases List.mem_cons.mp h with h | h
      · subst h
        calc w ≤ max v w := le_max_right v w
          _ ≤ us.foldl max (max v w) := le_foldl_max us (max v w) _ (Or.inl rfl)
      · exact le_foldl_max us (max v u) w (Or.inr h)

/-- The magnitude correction either leaves the column unchanged or maps a
pure function over the parsed entries. -/
theorem corrigir_magnitude_cases (xs : List (Option ℚ)) :
    corrigir_magnitude xs = xs
      ∨ ∃ f : ℚ → ℚ, corrigir_magnitude xs = xs.map (Option.map f) := by
  unfold corrigir_magnitude
  split
  · exact Or.inl rfl
  · dsimp only
    split
    · exact Or.inr ⟨_, rfl⟩
    · split
      · exact Or.inr ⟨_, rfl⟩
      · exact Or.inl rfl

/-- The magnitude correction never changes the number of rows of a column. -/
theorem corrigir_magnitude_length (xs : List (Option ℚ)) :
    (corrigir_magnitude xs).length = xs.length := by
  rcases corrigir_magnitude_cases xs with h | ⟨f, h⟩ <;> simp [h]

/-- The magnitude correction never turns a missing entry into a value. -/
theorem corrigir_magnitude_none (xs : List (Option ℚ)) (i : Nat)
    (h : xs[i]? = some none) :
    (corrigir_magnitude xs)[i]? = some none := by
  rcases corrigir_magnitude_cases xs with hc | ⟨f, hc⟩ <;> rw [hc]
  · exact h
  · simp [List.getElem?_map, h]

/-- Mixed branch of the magnitude correction (app.py lines 121-124): with a
valid value below 10 and one above 100, exactly the entries below 10 are
multiplied by 1000. -/
theorem corrigir_magnitude_mixed (xs : List (Option ℚ))
    (h1 : ∃ v ∈ valores_validos xs, v < 10)
    (h2 : ∃ v ∈ valores_validos xs, 100 < v) :
    corrigir_magnitude xs
      = xs.map (Option.map fun v => if v < 10 then v * 1000 else v) := by
  unfold corrigir_magnitude
  split
  · rename_i hV
    rw [hV] at h1
    simp at h1
  · rename_i v vs hV
    rw [hV] at h1 h2
    have hp : (v :: vs).any (fun x => decide (x < 10)) = true := by
      rcases h1 with ⟨w, hw, hlt⟩
      exact List.any_eq_true.mpr ⟨w, hw, by simpa using hlt⟩
    have hg : (v :: vs).any (fun x => decide (x > 100)) = true := by
      rcases h2 with ⟨w, hw, hlt⟩
      exact List.any_eq_true.mpr ⟨w, hw, by simpa using hlt⟩
    simp only [hp, hg]
    rfl

/-- All-small branch of the magnitude correction (app.py lines 125-127): when
every valid value is below 10 the whole column is multiplied by 1000; with no
valid values at all, every entry is missing, so the same map is also exact. -/
theorem corrigir_magnitude_small (xs : List (Option ℚ))
    (h : ∀ v ∈ valores_validos xs, v < 10) :
    corrigir_magnitude xs = xs.map (Option.map fun v => v * 1000) := by
  unfold corrigir_magnitude
  split
  · rename_i hV
    have hnone : ∀ c ∈ xs, c = none := by
      intro c hc
      rcases c with _ | q
      · rfl
      · exfalso
        have : q ∈ valores_validos xs := by
          simp only [valores_validos, List.mem_filterMap]
          exact ⟨some q, hc, rfl⟩
        rw [hV] at this
        simp at this
    have : xs.map (Option.map fun v => v * 1000) = xs.map id := by
      apply List.map_congr_left
      intro c hc
      rw [hnone c hc]
      rfl
    rw [this, List.map_id]
  · rename_i v vs hV
    have hmem : ∀ w ∈ v :: vs, w < 10 := by
      intro w hw
      exact h w (hV ▸ hw)
    have hg : (v :: vs).any (fun x => decide (x > 100)) = false := by
      rw [List.any_eq_false]
      intro w hw
      have := hmem w hw
      simp only [gt_iff_lt, decide_eq_true_eq]
      intro hc
      exact absurd (lt_trans hc this) (by norm_num)
    have hmax : vs.foldl max v < 10 :=
      foldl_max_lt vs v (hmem v (by simp)) fun w hw => hmem w (by simp [hw])
    simp only [hg, Bool.and_false, if_neg, hmax, if_pos]
    rfl

/-- No-op case of the magnitude correction: no mixed small-and-large pair and
some valid value at least 10 (whenever valid values exist at all) leaves the
column unchanged. -/
theorem corrigir_magnitude_noop (xs : List (Option ℚ))
    (hmx : ¬((∃ v ∈ valores_validos xs, v < 10) ∧ (∃ v ∈ valores_validos xs, 100 < v)))
    (hbig : valores_validos xs ≠ [] → ∃ v ∈ valores_validos xs, 10 ≤ v) :
    corrigir_magnitude xs = xs := by
  unfold corrigir_magnitude
  split
  · rfl
  · rename_i v vs hV
    rcases hbig (by rw [hV]; simp) with ⟨w, hw, hwge⟩
    rw [hV] at hw
    have hmax : ¬(vs.foldl max v < 10) := by
      have := le_foldl_max vs v w (by simpa using List.mem_cons.mp hw)
      intro hc
      exact absurd (lt_of_le_of_lt this hc) (not_lt.mpr hwge)
    have hand : ((v :: vs).any (fun x => decide (x < 10))
        && (v :: vs).any (fun x => decide (x > 100))) = false := by
      by_contra hc
      rw [Bool.not_eq_false, Bool.and_eq_true, List.any_eq_true, List.any_eq_true] at hc
      rcases hc with ⟨⟨a, ha, halt⟩, ⟨b, hb, hblt⟩⟩
      apply hmx
      refine ⟨⟨a, ?_, by simpa using halt⟩, ⟨b, ?_, by simpa using hblt⟩⟩
      · rw [hV]; exact ha
      · rw [hV]; exact hb
    rw [Bool.and_eq_false_iff] at hand
    simp only [hV] at *
    rcases hand with hand | hand
    · simp only [hand, Bool.false_and, if_neg, hmax, if_false]
      simp [hmax]
    · simp only [hand, Bool.and_false, if_neg, hmax, if_false]
      simp [hmax]

/-- Parsing then re-materializing a cell is the identity on cells with no
text artifact. -/
theorem ofOpt_parseCell {c : Cell} (h : c.semTexto = true) :
    ofOpt (parseCell c) = c := by
  cases c with
  | str s => simp [Cell.semTexto] at h
  | num q => rfl
  | na => rfl

/-- Processing a price column preserves its number of rows. -/
theorem processar_coluna_preco_length (cells : List Cell) :
    (processar_coluna_preco cells).length = cells.length := by
  simp [processar_coluna_preco, corrigir_magnitude_length]

/-- On a table with trimmed column names whose price columns hold only
numeric or missing cells, no mixed small-and-large pair, and (when any valid
value exists) some valid value at least 10, the normalizer is the identity. -/
theorem processar_eq_self (df : Table)
    (hnames : ∀ c ∈ df.cols, pyStrip c.1 = c.1)
    (hprice : ∀ c ∈ df.cols, c.1 ∈ colunas_preco →
      (∀ cell ∈ c.2, cell.semTexto = true)
      ∧ ¬((∃ v ∈ valores_validos (c.2.map parseCell), v < 10)
          ∧ (∃ v ∈ valores_validos (c.2.map parseCell), 100 < v))
      ∧ (valores_validos (c.2.map parseCell) ≠ [] →
          ∃ v ∈ valores_validos (c.2.map parseCell), 10 ≤ v)) :
    processar_valores_monetarios df = df := by
  have hstep : ∀ c ∈ df.cols,
      ((fun c : String × List Cell =>
          if c.1 ∈ colunas_preco then (c.1, processar_coluna_preco c.2) else c)
        ∘ (fun c : String × List Cell => (pyStrip c.1, c.2))) c = id c := by
    intro c hc
    simp only [Function.comp_apply, id_eq, hnames c hc]
    by_cases hp : c.1 ∈ colunas_preco
    · rcases hprice c hc hp with ⟨hcells, hmx, hbig⟩
      have hcol : processar_coluna_preco c.2 = c.2 := by
        unfold processar_coluna_preco
        rw [corrigir_magnitude_noop _ hmx hbig]
        rw [List.map_map]
        have : ∀ cell ∈ c.2, (ofOpt ∘ parseCell) cell = id cell := by
          intro cell hcell
          exact ofOpt_parseCell (hcells cell hcell)
        rw [List.map_congr_left this, List.map_id]
      simp [hp, hcol]
    · simp [hp]
  unfold processar_valores_monetarios limpar_nomes_colunas
  dsimp only
  rw [List.map_map, List.map_congr_left hstep, List.map_id]

/-! ### The claims -/

/-- C1: for every cell of a recognized price column, the normalizer parses the
cell by coercing it to text, removing the currency token R$ (case-insensitive)
and surrounding whitespace, then, if the text contains both a comma and a
period, deleting all periods and replacing the comma with a period; else if it
contains a comma but no period, replacing the comma with a period; otherwise
leaving the text unchanged; the result is parsed as a float.  In particular
"1.200,00" parses to 1200.00, "1200,00" to 1200.00, "1200.00" to 1200.00, and
"R$ 50,00" to 50.00. -/
theorem parse_preco_refines_spec :
    (∀ s : String, parseCell (Cell.str s) = spec_parse_money s)
    ∧ processar_texto_preco "1.200,00" = some 1200
    ∧ processar_texto_preco "1200,00" = some 1200
    ∧ processar_texto_preco "1200.00" = some 1200
    ∧ processar_texto_preco "R$ 50,00" = some 50 := by
  refine ⟨?_, ?_, ?_, ?_, ?_⟩
  · intro s
    unfold parseCell processar_texto_preco spec_parse_money converter_separadores limpar_moeda
    set t := pyStrip (pyReplaceTok 'r' '$' (pyReplaceTok 'R' '$' s)) with ht
    by_cases h1 : pyContem ',' t <;> by_cases h2 : pyContem '.' t <;> simp [h1, h2]
  all_goals
    simp [processar_texto_preco, limpar_moeda, converter_separadores, to_numeric,
      parseSemSinal, digitosParaNat, pyStrip, pyReplaceTok, pyTroca, pyRemove,
      pyContem, removeTok, trocaChar, removeChar, tiraEspacos, ehEspaco]

/-- C2: for every price column whose successfully-parsed values contain at
least one value strictly below 10 and at least one strictly above 100, the
magnitude correction multiplies exactly the values strictly below 10 by 1000
and leaves values at least 10 untouched; the parsed column
[5, 5, 200, 300] becomes [5000, 5000, 200, 300], and the correction is
column-scoped: Initial_Price = [5, 200] is corrected while Final_Price =
[150, 300] in the same table is untouched. -/
theorem correcao_mista_por_coluna (xs : List (Option ℚ))
    (h1 : ∃ v ∈ valores_validos xs, v < 10)
    (h2 : ∃ v ∈ valores_validos xs, 100 < v) :
    corrigir_magnitude xs = xs.map (Option.map fun v => if v < 10 then v * 1000 else v)
    ∧ corrigir_magnitude [some 5, some 5, some 200, some 300]
        = [some 5000, some 5000, some 200, some 300]
    ∧ processar_valores_monetarios
        ⟨[("Initial_Price", [Cell.num 5, Cell.num 200]),
          ("Final_Price", [Cell.num 150, Cell.num 300])]⟩
        = ⟨[("Initial_Price", [Cell.num 5000, Cell.num 200]),
            ("Final_Price", [Cell.num 150, Cell.num 300])]⟩ := by
  refine ⟨corrigir_magnitude_mixed xs h1 h2, ?_, ?_⟩
  · simp [corrigir_magnitude, valores_validos]
    norm_num
  · simp [processar_valores_monetarios, limpar_nomes_colunas, colunas_preco,
      processar_coluna_preco, parseCell, ofOpt, corrigir_magnitude, valores_validos,
      pyStrip, tiraEspacos, ehEspaco]
    norm_num [ofOpt]

/-- Witness for C2 at the parsed column [5, 5, 200, 300]. -/
theorem correcao_mista_witness :
    corrigir_magnitude [some 5, some 5, some 200, some 300]
      = [some 5000, some 5000, some 200, some 300] := by
  have h := (correcao_mista_por_coluna [some 5, some 5, some 200, some 300]
    (by decide) (by decide)).1
  rw [h]
  norm_num

/-- C3: for every price column, if every successfully-parsed value is
strictly below 10 the entire column is multiplied by 1000 ([1, 2, 3] becomes
[1000, 2000, 3000]); otherwise, when the mixed small-and-large condition also
fails, no correction is applied ([150, 200, 300] stays put); and with zero
successfully-parsed values the heuristic is a no-op. -/
theorem correcao_todos_pequenos (xs : List (Option ℚ)) :
    ((∀ v ∈ valores_validos xs, v < 10) →
        corrigir_magnitude xs = xs.map (Option.map fun v => v * 1000))
    ∧ (¬(∀ v ∈ valores_validos xs, v < 10) →
        ¬((∃ v ∈ valores_validos xs, v < 10) ∧ (∃ v ∈ valores_validos xs, 100 < v)) →
        corrigir_magnitude xs = xs)
    ∧ (valores_validos xs = [] → corrigir_magnitude xs = xs)
    ∧ corrigir_magnitude [some 1, some 2, some 3] = [some 1000, some 2000, some 3000]
    ∧ corrigir_magnitude [some 150, some 200, some 300] = [some 150, some 200, some 300] := by
  refine ⟨corrigir_magnitude_small xs, ?_, ?_, ?_, ?_⟩
  · intro hall hmx
    push_neg at hall
    rcases hall with ⟨v, hv, hge⟩
    exact corrigir_magnitude_noop xs hmx fun _ => ⟨v, hv, hge⟩
  · intro hemp
    apply corrigir_magnitude_noop xs
    · rintro ⟨⟨v, hv, _⟩, -⟩
      rw [hemp] at hv
      simp at hv
    · intro hne
      exact absurd hemp hne
  · simp [corrigir_magnitude, valores_validos]
    norm_num
  · simp [corrigir_magnitude, valores_validos]
    norm_num

/-- Witness for C3 at the parsed columns [1, 2, 3], [150, 200, 300] and an
all-missing column. -/
theorem correcao_todos_pequenos_witness :
    corrigir_magnitude [some 1, some 2, some 3] = [some 1000, some 2000, some 3000]
    ∧ corrigir_magnitude [some 150, some 200, some 300] = [some 150, some 200, some 300]
    ∧ corrigir_magnitude [none, none] = [none, none] := by
  refine ⟨?_, ?_, ?_⟩
  · have h := (correcao_todos_pequenos [some 1, some 2, some 3]).1 (by decide)
    rw [h]
    norm_num
  · exact (correcao_todos_pequenos [some 150, some 200, some 300]).2.1
      (by decide) (by decide)
  · exact (correcao_todos_pequenos [none, none]).2.2.1 (by decide)

/-- C4: a cell of a recognized price column whose text cannot be parsed as a
number after cleaning raises no exception: the cell becomes the missing
marker (processing it is the same as processing a missing cell), and all
sibling cells of the column are still processed by the normal algorithm. -/
theorem celula_invalida_vira_ausente (pre post : List Cell) (s : String)
    (h : processar_texto_preco s = none) :
    processar_coluna_preco (pre ++ Cell.str s :: post)
      = processar_coluna_preco (pre ++ Cell.na :: post)
    ∧ (processar_coluna_preco (pre ++ Cell.str s :: post))[pre.length]? = some Cell.na
    ∧ processar_coluna_preco [Cell.str "N/A", Cell.str "1.200,00"]
      = [Cell.na, Cell.num 1200] := by
  have hmap : (pre ++ Cell.str s :: post).map parseCell
      = (pre ++ Cell.na :: post).map parseCell := by
    simp [parseCell, h]
  refine ⟨?_, ?_, ?_⟩
  · unfold processar_coluna_preco
    rw [hmap]
  · have hidx : ((pre ++ Cell.na :: post).map parseCell)[pre.length]? = some none := by
      rw [List.map_append, List.map_cons,
        show parseCell Cell.na = none from rfl,
        List.getElem?_append_right (by simp)]
      simp
    have h2 := corrigir_magnitude_none _ _ hidx
    unfold processar_coluna_preco
    rw [hmap, List.getElem?_map, h2]
    rfl
  · simp [processar_coluna_preco, parseCell, processar_texto_preco, limpar_moeda,
      converter_separadores, to_numeric, parseSemSinal, digitosParaNat, pyStrip,
      pyReplaceTok, pyTroca, pyRemove, pyContem, removeTok, trocaChar, removeChar,
      tiraEspacos, ehEspaco, corrigir_magnitude, valores_validos, ofOpt]
    norm_num [ofOpt]

/-- Witness for C4 at the cell "N/A" with sibling "1200,00". -/
theorem celula_invalida_witness :
    processar_coluna_preco [Cell.str "N/A", Cell.str "1200,00"]
      = processar_coluna_preco [Cell.na, Cell.str "1200,00"]
    ∧ (processar_coluna_preco [Cell.str "N/A", Cell.str "1200,00"])[0]? = some Cell.na := by
  have h := celula_invalida_vira_ausente [] [Cell.str "1200,00"] "N/A" (by decide)
  exact ⟨by simpa using h.1, by simpa using h.2.1⟩

/-- C5 as stated is false: the numeric column [0.001, 5] is itself an output
of the normalizer (applied to [0.000001, 0.005]), holds no text artifact and
no value below 10 alongside a value above 100, yet running the normalizer on
it twice gives [1000, 5000] while running it once gives [1, 5000]. -/
theorem idempotencia_contraexemplo :
    processar_valores_monetarios
        ⟨[("Initial_Price", [Cell.num (1/1000000), Cell.num (1/200)])]⟩
      = ⟨[("Initial_Price", [Cell.num (1/1000), Cell.num 5])]⟩
    ∧ (∀ cell ∈ [Cell.num ((1 : ℚ)/1000), Cell.num 5], cell.semTexto = true)
    ∧ ¬((∃ v ∈ valores_validos ([Cell.num ((1 : ℚ)/1000), Cell.num 5].map parseCell), v < 10)
        ∧ (∃ v ∈ valores_validos ([Cell.num ((1 : ℚ)/1000), Cell.num 5].map parseCell), 100 < v))
    ∧ processar_valores_monetarios (processar_valores_monetarios
        ⟨[("Initial_Price", [Cell.num (1/1000), Cell.num 5])]⟩)
      ≠ processar_valores_monetarios
        ⟨[("Initial_Price", [Cell.num (1/1000), Cell.num 5])]⟩ := by
  have e1 : processar_valores_monetarios
      ⟨[("Initial_Price", [Cell.num (1/1000), Cell.num 5])]⟩
      = ⟨[("Initial_Price", [Cell.num 1, Cell.num 5000])]⟩ := by
    simp [processar_valores_monetarios, limpar_nomes_colunas, colunas_preco,
      processar_coluna_preco, parseCell, corrigir_magnitude, valores_validos,
      pyStrip, tiraEspacos, ehEspaco, max_def]
    norm_num [ofOpt]
  have e2 : processar_valores_monetarios
      ⟨[("Initial_Price", [Cell.num 1, Cell.num 5000])]⟩
      = ⟨[("Initial_Price", [Cell.num 1000, Cell.num 5000])]⟩ := by
    simp [processar_valores_monetarios, limpar_nomes_colunas, colunas_preco,
      processar_coluna_preco, parseCell, corrigir_magnitude, valores_validos,
      pyStrip, tiraEspacos, ehEspaco, max_def]
    norm_num [ofOpt]
  refine ⟨?_, ?_, ?_, ?_⟩
  · simp [processar_valores_monetarios, limpar_nomes_colunas, colunas_preco,
      processar_coluna_preco, parseCell, corrigir_magnitude, valores_validos,
      pyStrip, tiraEspacos, ehEspaco, max_def]
    norm_num [ofOpt]
  · intro cell hcell
    rcases List.mem_cons.mp hcell with h | h
    · rw [h]; rfl
    · rcases List.mem_cons.mp h with h | h
      · rw [h]; rfl
      · simp at h
  · rintro ⟨-, ⟨v, hv, hlt⟩⟩
    simp [valores_validos, parseCell] at hv
    rcases hv with hv | hv <;> rw [hv] at hlt <;> norm_num at hlt
  · rw [e1, e2]
    intro hc
    have := congrArg Table.cols hc
    simp at this

/-- C5 amended: on already-normalized numeric data — trimmed column names, no
remaining text artifacts, no value below 10 alongside a value above 100 in a
price column, and additionally (as the counterexample forces) in each price
column with any successfully-parsed values at least one of them is at least
10 — running the normalizer twice produces the same output as running it
once. -/
theorem idempotencia_corrigida (df : Table)
    (hnames : ∀ c ∈ df.cols, pyStrip c.1 = c.1)
    (hprice : ∀ c ∈ df.cols, c.1 ∈ colunas_preco →
      (∀ cell ∈ c.2, cell.semTexto = true)
      ∧ ¬((∃ v ∈ valores_validos (c.2.map parseCell), v < 10)
          ∧ (∃ v ∈ valores_validos (c.2.map parseCell), 100 < v))
      ∧ (valores_validos (c.2.map parseCell) ≠ [] →
          ∃ v ∈ valores_validos (c.2.map parseCell), 10 ≤ v)) :
    processar_valores_monetarios (processar_valores_monetarios df)
      = processar_valores_monetarios df := by
  have h := processar_eq_self df hnames hprice
  rw [h]
  exact h

/-- Witness for the amended C5 at a two-column numeric table. -/
theorem idempotencia_corrigida_witness :
    processar_valores_monetarios (processar_valores_monetarios
        ⟨[("Initial_Price", [Cell.num 150, Cell.num 200]), ("Brand", [Cell.str "b"])]⟩)
      = processar_valores_monetarios
        ⟨[("Initial_Price", [Cell.num 150, Cell.num 200]), ("Brand", [Cell.str "b"])]⟩ :=
  idempotencia_corrigida
    ⟨[("Initial_Price", [Cell.num 150, Cell.num 200]), ("Brand", [Cell.str "b"])]⟩
    (by decide) (by decide)

/-- C6 as stated is false: after a call, the caller's retained reference to
the input table does not see the original table — here the untrimmed column
name " Brand" has been trimmed in place. -/
theorem nao_mutacao_contraexemplo :
    (processar_call ⟨[(" Brand", [Cell.str "x"])]⟩).1
      ≠ ⟨[(" Brand", [Cell.str "x"])]⟩ := by
  decide

/-- C6 amended: the normalizer mutates the caller's table in place — after an
invocation the caller's retained reference sees exactly the corrected table,
which is the very object the function returns, not a separate copy. -/
theorem mutacao_in_place (df : Table) :
    (processar_call df).1 = (processar_call df).2
    ∧ (processar_call df).1 = processar_valores_monetarios df :=
  ⟨rfl, rfl⟩

/-- C7: for every column of the input table — price column or not — the
column name in the output is the input name with surrounding whitespace
removed, and the trimming is applied to the whole table before price-column
recognition: a single column is recognized as a price column exactly when
its trimmed name is one of the two price names. -/
theorem nomes_colunas_aparados (df : Table) :
    (processar_valores_monetarios df).cols.map Prod.fst
      = df.cols.map (fun c => pyStrip c.1)
    ∧ ∀ (name : String) (cells : List Cell),
        processar_valores_monetarios ⟨[(name, cells)]⟩
          = ⟨[(pyStrip name,
              if pyStrip name ∈ colunas_preco then processar_coluna_preco cells
              else cells)]⟩ := by
  constructor
  · unfold processar_valores_monetarios limpar_nomes_colunas
    dsimp only
    rw [List.map_map, List.map_map]
    apply List.map_congr_left
    intro c hc
    by_cases hp : pyStrip c.1 ∈ colunas_preco <;> simp [hp]
  · intro name cells
    by_cases hp : pyStrip name ∈ colunas_preco <;>
      simp [processar_valores_monetarios, limpar_nomes_colunas, hp]

/-- C8: a table without a recognized price column (after trimming) is only
trimmed, with no error — the processing of absent columns is skipped — and a
recognized price column that is present is still processed. -/
theorem coluna_ausente_ignorada :
    (∀ df : Table, (∀ c ∈ df.cols, pyStrip c.1 ∉ colunas_preco) →
        processar_valores_monetarios df = limpar_nomes_colunas df)
    ∧ (∀ (n : String) (cs : List Cell) (m : String) (ds : List Cell),
        pyStrip n ∉ colunas_preco → pyStrip m ∈ colunas_preco →
        processar_valores_monetarios ⟨[(n, cs), (m, ds)]⟩
          = ⟨[(pyStrip n, cs), (pyStrip m, processar_coluna_preco ds)]⟩) := by
  constructor
  · intro df h
    unfold processar_valores_monetarios limpar_nomes_colunas
    dsimp only
    rw [List.map_map]
    congr 1
    apply List.map_congr_left
    intro c hc
    simp [h c hc]
  · intro n cs m ds hn hm
    simp [processar_valores_monetarios, limpar_nomes_colunas, hn, hm]

/-- Witness for C8: a table with no price column is merely trimmed, and one
with only a (untrimmed) Final_Price column still gets it processed. -/
theorem coluna_ausente_witness :
    processar_valores_monetarios ⟨[("Brand", [Cell.str "x"])]⟩
      = limpar_nomes_colunas ⟨[("Brand", [Cell.str "x"])]⟩
    ∧ processar_valores_monetarios ⟨[("Name", [Cell.str "y"]), (" Final_Price", [Cell.na])]⟩
      = ⟨[("Name", [Cell.str "y"]), ("Final_Price", processar_coluna_preco [Cell.na])]⟩ := by
  constructor
  · exact coluna_ausente_ignorada.1 ⟨[("Brand", [Cell.str "x"])]⟩ (by decide)
  · exact (coluna_ausente_ignorada.2 "Name" [Cell.str "y"] " Final_Price" [Cell.na]
      (by decide) (by decide)).trans (by decide)

/-- C9: the normalizer preserves the number of columns, the number and order
of the rows of every column, and the cell values of every column other than
the recognized price columns — only their names are trimmed. -/
theorem preserva_linhas_e_outras_colunas (df : Table) :
    (processar_valores_monetarios df).cols.length = df.cols.length
    ∧ (∀ i : Nat,
        ((processar_valores_monetarios df).cols[i]?).map (fun c => c.2.length)
          = (df.cols[i]?).map (fun c => c.2.length))
    ∧ (∀ (i : Nat) (n : String) (cells : List Cell),
        df.cols[i]? = some (n, cells) → pyStrip n ∉ colunas_preco →
        (processar_valores_monetarios df).cols[i]? = some (pyStrip n, cells)) := by
  have hcols : (processar_valores_monetarios df).cols
      = df.cols.map (fun c =>
          if pyStrip c.1 ∈ colunas_preco then (pyStrip c.1, processar_coluna_preco c.2)
          else (pyStrip c.1, c.2)) := by
    unfold processar_valores_monetarios limpar_nomes_colunas
    dsimp only
    rw [List.map_map]
    apply List.map_congr_left
    intro c hc
    by_cases hp : pyStrip c.1 ∈ colunas_preco <;> simp [hp]
  refine ⟨?_, ?_, ?_⟩
  · rw [hcols]
    simp
  · intro i
    rw [hcols, List.getElem?_map]
    cases hdi : df.cols[i]? with
    | none => rfl
    | some c =>
      by_cases hp : pyStrip c.1 ∈ colunas_preco <;>
        simp [hp, processar_coluna_preco_length]
  · intro i n cells hdi hn
    rw [hcols, List.getElem?_map, hdi]
    simp [hn]

/-- Witness for C9 at a table with one non-price and one price column. -/
theorem preserva_linhas_witness :
    (processar_valores_monetarios
        ⟨[("Brand", [Cell.str "x"]), ("Initial_Price", [Cell.na])]⟩).cols[0]?
      = some ("Brand", [Cell.str "x"]) := by
  have h := (preserva_linhas_e_outras_colunas
    ⟨[("Brand", [Cell.str "x"]), ("Initial_Price", [Cell.na])]⟩).2.2
    0 "Brand" [Cell.str "x"] (by decide) (by decide)
  exact h.trans (by decide)

/-- C10: a cell of a recognized price column that is already the missing
marker in the input is still the missing marker in the output: the text
round trip maps it back to missing, and neither magnitude-correction branch
turns it into a number. -/
theorem ausente_permanece_ausente (cells : List Cell) (i : Nat)
    (h : cells[i]? = some Cell.na) :
    (processar_coluna_preco cells)[i]? = some Cell.na := by
  have hy : (cells.map parseCell)[i]? = some none := by
    rw [List.getElem?_map, h]
    rfl
  unfold processar_coluna_preco
  rw [List.getElem?_map, corrigir_magnitude_none _ _ hy]
  rfl

/-- Witness for C10 at a column with a parseable sibling and a missing cell. -/
theorem ausente_permanece_witness :
    (processar_coluna_preco [Cell.str "1200,00", Cell.na])[1]? = some Cell.na :=
  ausente_permanece_ausente [Cell.str "1200,00", Cell.na] 1 (by decide)

end Dashboard
